import Mathlib

/-!
# Verification of the jetson-voice-assistant audio core

Shallow embedding of the audio-pipeline code of the repository
(`src/assistant.py`, `src/audio_devices.py`, `src/hardware_profiles.py`)
and proofs about it.  Bytes are modelled as `Fin 256`, byte strings as
`List Byte`, the ring buffer of the persistent capture stream as a
`List (List Byte)` whose head is the oldest chunk.
-/

namespace JetsonVoice

abbrev Byte := Fin 256

/-! ## Signal analyzer (`audio_devices.get_audio_amplitude`) -/

/-- Decode two bytes as one 16-bit signed little-endian sample, as
`struct.unpack('<h', bytes([lo, hi]))[0]` does. -/
def decodeS16LE (lo hi : Byte) : Int :=
  let raw : Nat := lo.val + 256 * hi.val
  if raw < 32768 then (raw : Int) else (raw : Int) - 65536

/-- Indices `0, 10, 20, …` below `bound`, as `range(0, bound, 10)`. -/
def sampleIndices (bound : Nat) : List Nat :=
  (List.range ((bound + 9) / 10)).map (· * 10)

/-- The sampling loop of `get_audio_amplitude`: running maximum of the
absolute decoded samples at the given indices.  When fewer than two
bytes remain at an index (`audio_bytes[i*2:(i*2)+2]` shorter than 2),
`struct.unpack` raises `struct.error` and the loop breaks. -/
def ampLoop (audio : List Byte) : List Nat → Nat → Nat
  | [], m => m
  | i :: rest, m =>
    if h : 2 * i + 1 < audio.length then
      ampLoop audio rest
        (max m (decodeS16LE (audio.get ⟨2 * i, by omega⟩)
          (audio.get ⟨2 * i + 1, h⟩)).natAbs)
    else m

/-- `audio_devices.get_audio_amplitude` (audio_devices.py:182-205). -/
def get_audio_amplitude (audio : List Byte) : Nat :=
  if audio.length < 100 then 0
  else ampLoop audio (sampleIndices (min (audio.length / 2) 1000)) 0

/-- Absolute value of the decoded sample at index `i`, written directly
from the buffer (specification-side view of one loop iteration). -/
def sampleAbs (audio : List Byte) (i : Nat) : Nat :=
  (decodeS16LE (audio.getD (2 * i) 0) (audio.getD (2 * i + 1) 0)).natAbs

/-! ## Persistent capture stream ring buffer
(`PersistentAudioStream` in assistant.py)

The ring buffer `self._buffer` is a deque of byte chunks; the head of the
list is the oldest chunk (the one `popleft` removes first). -/

/-- Bytes per second of audio: `sample_rate * channels * 2`
(S16_LE is 2 bytes per sample), assistant.py:47. -/
def bytesPerSecond (sampleRate channels : Nat) : Nat :=
  sampleRate * channels * 2

/-- Timeout branch shared by `read_seconds` (assistant.py:142-150) and
`read_bytes` (assistant.py:182-188): join the whole buffer, clear it,
pad with zero bytes up to `bytesNeeded`, and truncate to `bytesNeeded`. -/
def readTimeoutResult (buffer : List (List Byte)) (bytesNeeded : Nat) : List Byte :=
  let result := buffer.flatten
  let padded :=
    if result.length < bytesNeeded then
      result ++ List.replicate (bytesNeeded - result.length) 0
    else result
  padded.take bytesNeeded

/-- Value returned by `PersistentAudioStream.read_seconds` when the
timeout elapses before `int(duration * bytes_per_second)` bytes are
buffered. -/
def read_seconds_timeout (sampleRate channels : Nat) (buffer : List (List Byte))
    (duration : Nat) : List Byte :=
  readTimeoutResult buffer (duration * bytesPerSecond sampleRate channels)

/-- Value returned by `PersistentAudioStream.read_bytes` when the timeout
elapses before `bytesNeeded` bytes are buffered. -/
def read_bytes_timeout (buffer : List (List Byte)) (bytesNeeded : Nat) : List Byte :=
  readTimeoutResult buffer bytesNeeded

/-- Collection loop of the fast path of `read_seconds`/`read_bytes`
(assistant.py:128-130): `while len(result) < bytes_needed and
self._buffer: result += self._buffer.popleft()`.  Returns the collected
bytes and the remaining buffer. -/
def collectChunks : List (List Byte) → Nat → List Byte → List Byte × List (List Byte)
  | [], _, acc => (acc, [])
  | chunk :: rest, bytesNeeded, acc =>
    if acc.length < bytesNeeded then collectChunks rest bytesNeeded (acc ++ chunk)
    else (acc, chunk :: rest)

/-- Fast path of `read_seconds`/`read_bytes` taken when enough bytes are
buffered (assistant.py:126-138): collect chunks, and if too much was
taken, push the excess back onto the front of the buffer.  Returns the
bytes handed to the caller and the new buffer. -/
def readFast (buffer : List (List Byte)) (bytesNeeded : Nat) :
    List Byte × List (List Byte) :=
  let res := collectChunks buffer bytesNeeded []
  if bytesNeeded < res.1.length then
    (res.1.take bytesNeeded, res.1.drop bytesNeeded :: res.2)
  else res

/-- Capacity loop of the reader thread (assistant.py:94-96):
`while len(self._buffer) > max_chunks: self._buffer.popleft()` with
`max_chunks = 100`. -/
def trimBuffer (buffer : List (List Byte)) : List (List Byte) :=
  if _h : 100 < buffer.length then trimBuffer buffer.tail else buffer
termination_by buffer.length
decreasing_by simp only [List.length_tail]; omega

/-- One reader-thread append (assistant.py:90-96): a non-empty chunk read
from the capture process is appended to the buffer, then the buffer is
trimmed to the 100-chunk cap by dropping the oldest chunks. -/
def readerAppend (buffer : List (List Byte)) (data : List Byte) : List (List Byte) :=
  trimBuffer (buffer ++ [data])

/-! ## Hardware profiles (`hardware_profiles.py`) -/

/-- Frozen dataclass `HardwareProfile` (hardware_profiles.py:7-11).  It
declares exactly three fields. -/
structure HardwareProfile where
  name : String
  prefer_capture_channels : Option Nat := none
  mute_detection : String := "none"
deriving DecidableEq

/-- Profile returned for Jabra SPEAK devices (hardware_profiles.py:83-87). -/
def jabraSpeakProfile : HardwareProfile :=
  { name := "jabra_speak", prefer_capture_channels := some 1,
    mute_detection := "amplitude_zero" }

/-- Profile returned for Anker PowerConf devices (hardware_profiles.py:91-95). -/
def ankerPowerconfProfile : HardwareProfile :=
  { name := "anker_powerconf_s330", prefer_capture_channels := some 2,
    mute_detection := "none" }

/-- Default profile for unmatched devices (hardware_profiles.py:97). -/
def defaultProfile : HardwareProfile :=
  { name := "default" }

/-! ## Mute/silence hysteresis detector
(`VoiceAssistant.check_and_update_mute_status`, assistant.py:440-488) -/

/-- Mute-tracking state of the assistant:
`self._last_mute_state` and `self._mute_counter`. -/
structure MuteState where
  lastMuteState : Bool
  muteCounter : Nat
deriving DecidableEq

/-- Result of `getattr(self._hardware_profile, 'mute_detection', 'none')`
combined with the `is None` guard (assistant.py:457). -/
def muteStrategy : Option HardwareProfile → String
  | none => "none"
  | some p => p.mute_detection

/-- Model of `VoiceAssistant.check_and_update_mute_status`
(assistant.py:440-488).  Returns the new mute-tracking state and the
returned boolean; the boolean is also the value published via
`write_mute_state`. -/
def check_and_update_mute_status (profile : Option HardwareProfile)
    (st : MuteState) (audioData : List Byte) : MuteState × Bool :=
  if muteStrategy profile ≠ "amplitude_zero" then
    ({ lastMuteState := false, muteCounter := 0 }, false)
  else
    let amp := get_audio_amplitude audioData
    if amp = 0 then
      if ¬ st.lastMuteState then
        let counter := st.muteCounter + 1
        if 2 ≤ counter then ({ lastMuteState := true, muteCounter := 0 }, true)
        else ({ lastMuteState := false, muteCounter := counter }, false)
      else ({ lastMuteState := true, muteCounter := 0 }, true)
    else
      ({ lastMuteState := false, muteCounter := 0 }, false)

/-! ## VoiceAssistant initialisation: capture-device resolution
(assistant.py:229-254) -/

/-- Value of one attribute of a `HardwareProfile` instance. -/
inductive AttrValue where
  | str (s : String)
  | optNat (n : Option Nat)
deriving DecidableEq

/-- Attribute lookup on a `HardwareProfile` instance.  The dataclass is
frozen and `get_hardware_profile` constructs instances with exactly the
three declared fields, so any other attribute name raises
`AttributeError`, modelled as `none`. -/
def hardwareProfileGetattr (p : HardwareProfile) (attr : String) : Option AttrValue :=
  if attr = "name" then some (.str p.name)
  else if attr = "prefer_capture_channels" then some (.optNat p.prefer_capture_channels)
  else if attr = "mute_detection" then some (.str p.mute_detection)
  else none

/-- Model of assistant.py:232,
`self._capture_device = self._hardware_profile.preferred_capture_device or self.audio_device`:
the attribute access either raises (`Except.error`) or yields a value fed
into Python's `or`. -/
def initResolveCaptureDevice (p : HardwareProfile) (audioDevice : String) :
    Except String String :=
  match hardwareProfileGetattr p "preferred_capture_device" with
  | none => .error "AttributeError: preferred_capture_device"
  | some (.str s) => .ok (if s = "" then audioDevice else s)
  | some (.optNat _) => .error "unexpected attribute type"

/-- Remainder of `VoiceAssistant.__init__` after settings are loaded:
the capture-device resolution (assistant.py:232) runs strictly before the
`PersistentAudioStream` is constructed (assistant.py:250), so the stream
is started only if the resolution step did not raise.  Returns `true`
when the capture stream gets started. -/
def initStartsCaptureStream (p : HardwareProfile) (audioDevice : String) :
    Except String Bool :=
  match initResolveCaptureDevice p audioDevice with
  | .error e => .error e
  | .ok _ => .ok true

/-! ## Wake-word fallback matching
(`VoiceAssistant.listen_for_wake_word`, assistant.py:735-791) -/

/-- Python `str.lower()` on the transcript (ASCII case). -/
def pyLower (s : List Char) : List Char := s.map Char.toLower

/-- Character class `[a-z0-9]`. -/
def isLowerAlnum (c : Char) : Bool :=
  ('a' ≤ c && c ≤ 'z') || ('0' ≤ c && c ≤ '9')

/-- Normalisation `re.sub(r'[^a-z0-9]+', '', s)`: keep only the
characters in `[a-z0-9]` (assistant.py:765-766). -/
def normalizeAlnum (s : List Char) : List Char := s.filter isLowerAlnum

/-- Python substring test `sub in text`. -/
def strContains (sub text : List Char) : Bool := decide (sub <:+: text)

/-- Order-preserving deduplication, as `list(dict.fromkeys(xs))`. -/
def dedupKeepFirst {α : Type} [DecidableEq α] (l : List α) : List α :=
  l.foldl (fun acc a => if a ∈ acc then acc else acc ++ [a]) []

/-- Alias-list construction of the fallback matcher
(assistant.py:770-781): the normalised wake word plus hard-coded
misrecognition aliases for `computer`, `assistant` and `jetson`, each
lower-cased and normalised, with empty entries removed and duplicates
dropped keeping first occurrence. -/
def wakeAliases (normalizedWake : List Char) : List (List Char) :=
  let base := if normalizedWake ≠ [] then [normalizedWake] else []
  let extra :=
    if normalizedWake = "computer".data then
      ["comehere".data, "compute".data, "commuter".data]
    else if normalizedWake = "assistant".data then
      ["aassistant".data]
    else if normalizedWake = "jetson".data then
      ["jetson".data, "jetsonn".data, "jetsonnn".data, "jetson testing".data,
        "jetson".data]
    else []
  let kept := (base ++ extra).filter (fun a => a ≠ [])
  let normalised := kept.map (fun a => normalizeAlnum (pyLower a))
  dedupKeepFirst (normalised.filter (fun a => a ≠ []))

/-- Python `text.split(sep, 1)` for non-empty `sep`, reported as the part
before and the part after the first occurrence of `sep`; `none` when
`sep` does not occur (so `split` returns the one-element list). -/
def pySplit1 (sep : List Char) : List Char → Option (List Char × List Char)
  | [] => if sep.isPrefixOf ([] : List Char) then some ([], []) else none
  | c :: rest =>
    if sep.isPrefixOf (c :: rest) then some ([], (c :: rest).drop sep.length)
    else (pySplit1 sep rest).map (fun p => (c :: p.1, p.2))

/-- Python `str.strip()`: drop whitespace from both ends. -/
def pyStrip (s : List Char) : List Char :=
  ((s.dropWhile Char.isWhitespace).reverse.dropWhile Char.isWhitespace).reverse

/-- Fallback (no-spotter) wake-word matching of
`VoiceAssistant.listen_for_wake_word` (assistant.py:761-791), from the
transcribed text onward.  `wakeWord` is `self.wake_word` (already
stripped and lower-cased by `_load_settings`).  Returns
`(detected, trailing_command)`.  An empty wake word would make
`str.split` raise `ValueError`, which the surrounding handler turns into
`(False, None)`. -/
def listen_for_wake_word_fallback (wakeWord transcript : List Char) :
    Bool × Option (List Char) :=
  let textLower := pyLower transcript
  let normalizedText := normalizeAlnum textLower
  let normalizedWake := normalizeAlnum (pyLower wakeWord)
  let aliases := wakeAliases normalizedWake
  if strContains wakeWord textLower
      || aliases.any (fun a => strContains a normalizedText) then
    if wakeWord = [] then (false, none)
    else
      match pySplit1 wakeWord textLower with
      | some p =>
        let trailing := pyStrip p.2
        if trailing ≠ [] then (true, some trailing) else (true, none)
      | none => (true, none)
  else (false, none)

/-- Wake-word match rule as the spec states it: the raw wake phrase is a
substring of the raw lower-cased transcript, or one of the alias list
(which contains the normalised wake phrase) is a substring of the
normalised transcript. -/
def FallbackMatchSpec (wakeWord transcript : List Char) : Prop :=
  wakeWord <:+: pyLower transcript ∨
    ∃ a ∈ wakeAliases (normalizeAlnum (pyLower wakeWord)),
      a <:+: normalizeAlnum (pyLower transcript)

/-! ## Channel capability probing
(`VoiceAssistant._probe_capture_channels`, assistant.py:271-311) -/

/-- Outcome of one short `arecord` probe attempt: the subprocess call
either completes with a return code and captured stderr, or raises. -/
inductive ArecordOutcome where
  | completed (returncode : Nat) (stderr : List Char)
  | raised
deriving DecidableEq

/-- Driver message for an unsupported channel count. -/
def channelsErrMsg : List Char := "Channels count non available".data

/-- Candidate list built at assistant.py:277-282: `[preferred]` when
`preferred in (1, 2)`, then 1 and 2 appended if missing. -/
def probeCandidates (preferred : Nat) : List Nat :=
  let c0 := if preferred = 1 || preferred = 2 then [preferred] else []
  let c1 := if c0.contains 1 then c0 else c0 ++ [1]
  if c1.contains 2 then c1 else c1 ++ [2]

/-- Acceptance test at assistant.py:302-303: the probe completed with
return code 0 and stderr not containing the unsupported-channel-count
message.  A raised exception is caught and treated as rejection. -/
def probeAccepts : ArecordOutcome → Bool
  | .raised => false
  | .completed rc stderr => rc == 0 && !(strContains channelsErrMsg stderr)

/-- Probe loop of assistant.py:284-311: return the first accepted
candidate, or `preferred` when every candidate is rejected. -/
def probeLoop (dev : Nat → ArecordOutcome) (preferred : Nat) : List Nat → Nat
  | [] => preferred
  | ch :: rest => if probeAccepts (dev ch) then ch else probeLoop dev preferred rest

/-- Model of `VoiceAssistant._probe_capture_channels`; `dev` maps a
channel count to the outcome of the short `arecord` probe at that count
(device and sample rate are fixed). -/
def probe_capture_channels (dev : Nat → ArecordOutcome) (preferred : Nat) : Nat :=
  probeLoop dev preferred (probeCandidates preferred)

/-- Modelled from the spec: the claim's candidate list, the priority
order `{preferred, 1, 2}` deduplicated. -/
def claimCandidates (preferred : Nat) : List Nat :=
  dedupKeepFirst [preferred, 1, 2]

/-- Modelled from the spec: channel probing as the claim describes it,
trying every candidate of `{preferred, 1, 2}` deduplicated in priority
order. -/
def probe_capture_channels_claim (dev : Nat → ArecordOutcome) (preferred : Nat) : Nat :=
  probeLoop dev preferred (claimCandidates preferred)

/-- Concrete device driver that accepts channel counts 2 and 3 and
rejects everything else with the unsupported-channel-count error. -/
def acceptsTwoOrThreeDevice : Nat → ArecordOutcome := fun ch =>
  if ch = 2 || ch = 3 then .completed 0 [] else .completed 1 channelsErrMsg

/-- Concrete stereo-only device driver: accepts only channel count 2. -/
def stereoOnlyDevice : Nat → ArecordOutcome := fun ch =>
  if ch = 2 then .completed 0 [] else .completed 1 channelsErrMsg

/-! ## Stream shutdown (`PersistentAudioStream.stop`, assistant.py:190-198) -/

/-- Process-related state of a `PersistentAudioStream`: the running flag
and the `self._process` handle (a pid, `none` when no process was ever
attached). -/
structure CaptureStreamState where
  running : Bool
  process : Option Nat
deriving DecidableEq

/-- Actions `stop()` performs on the capture process. -/
inductive ProcAction where
  | terminate (pid : Nat)
  | waitOk (pid : Nat)
  | kill (pid : Nat)
deriving DecidableEq

/-- Model of `PersistentAudioStream.stop` (assistant.py:190-198): clear
`self._running`; if `self._process` is set, terminate it, wait up to the
grace period, and kill it when the wait times out (`waitTimesOut`).  The
`_process` attribute itself is never reassigned. -/
def stop (s : CaptureStreamState) (waitTimesOut : Bool) :
    CaptureStreamState × List ProcAction :=
  match s.process with
  | none => ({ s with running := false }, [])
  | some pid =>
    ({ s with running := false },
      if waitTimesOut then [.terminate pid, .kill pid]
      else [.terminate pid, .waitOk pid])

/-! ## Concrete test buffers -/

/-- A 100-byte buffer of zero samples (hardware-muted capture window). -/
def zeroBuf100 : List Byte := List.replicate 100 0

/-- A 100-byte buffer whose first sample is 1 (non-zero amplitude). -/
def nonzeroBuf100 : List Byte := (1 : Byte) :: List.replicate 99 0

/-- A 100-byte buffer whose first sample is the 16-bit minimum -32768
(little-endian bytes `0x00 0x80`), the rest zero. -/
def negFullScaleBuf : List Byte := (0 : Byte) :: (128 : Byte) :: List.replicate 98 0

/-! # Helper lemmas -/

theorem decodeS16LE_natAbs_le (lo hi : Byte) : (decodeS16LE lo hi).natAbs ≤ 32768 := by
  have hlo := lo.isLt
  have hhi := hi.isLt
  simp only [decodeS16LE]
  split <;> omega

theorem ampLoop_le (audio : List Byte) (idxs : List Nat) (m : Nat)
    (hm : m ≤ 32768) : ampLoop audio idxs m ≤ 32768 := by
  induction idxs generalizing m with
  | nil => simpa [ampLoop] using hm
  | cons i rest ih =>
    simp only [ampLoop]
    split
    · next h =>
        exact ih _ (by
          have := decodeS16LE_natAbs_le (audio.get ⟨2 * i, by omega⟩)
            (audio.get ⟨2 * i + 1, h⟩)
          omega)
    · exact hm

theorem sampleAbs_eq_get (audio : List Byte) (i : Nat) (h : 2 * i + 1 < audio.length) :
    sampleAbs audio i =
      (decodeS16LE (audio.get ⟨2 * i, by omega⟩) (audio.get ⟨2 * i + 1, h⟩)).natAbs := by
  have h0 : 2 * i < audio.length := by omega
  simp [sampleAbs, List.getD_eq_getElem?_getD, List.getElem?_eq_getElem h0,
    List.getElem?_eq_getElem h, List.get_eq_getElem]

theorem ampLoop_eq_foldr (audio : List Byte) (idxs : List Nat) (m : Nat)
    (hidx : ∀ i ∈ idxs, 2 * i + 1 < audio.length) :
    ampLoop audio idxs m = max m ((idxs.map (sampleAbs audio)).foldr max 0) := by
  induction idxs generalizing m with
  | nil => simp [ampLoop]
  | cons i rest ih =>
    have hi1 : 2 * i + 1 < audio.length := hidx i (List.mem_cons_self i rest)
    simp only [ampLoop, dif_pos hi1, List.map_cons, List.foldr_cons]
    rw [ih _ (fun j hj => hidx j (List.mem_cons_of_mem i hj)), sampleAbs_eq_get audio i hi1]
    omega

theorem sampleIndices_length (bound : Nat) :
    (sampleIndices bound).length = (bound + 9) / 10 := by
  simp [sampleIndices]

theorem sampleIndices_mem (bound i : Nat) :
    i ∈ sampleIndices bound ↔ ∃ k, k < (bound + 9) / 10 ∧ i = k * 10 := by
  simp only [sampleIndices, List.mem_map, List.mem_range]
  constructor
  · rintro ⟨k, hk, rfl⟩; exact ⟨k, hk, rfl⟩
  · rintro ⟨k, hk, rfl⟩; exact ⟨k, hk, rfl⟩

/-! # Claim theorems -/

/-- C9: the signal analyzer `get_audio_amplitude` decodes the input as
16-bit signed little-endian samples and computes the maximum absolute
value over a bounded (at most 100 indices), evenly spaced (multiples of
10) subsample — not every sample: sample index 1 exists but is never
inspected — and returns 0 for every buffer shorter than the 100-byte
minimum viable length. -/
theorem C9_signal_analyzer_spec (audio : List Byte) :
    (audio.length < 100 → get_audio_amplitude audio = 0) ∧
    (100 ≤ audio.length →
      get_audio_amplitude audio =
        ((sampleIndices (min (audio.length / 2) 1000)).map (sampleAbs audio)).foldr max 0 ∧
      (sampleIndices (min (audio.length / 2) 1000)).length ≤ 100 ∧
      (∀ i ∈ sampleIndices (min (audio.length / 2) 1000),
        i % 10 = 0 ∧ i < audio.length / 2) ∧
      (1 < audio.length / 2 ∧ 1 ∉ sampleIndices (min (audio.length / 2) 1000))) := by
  constructor
  · intro h
    simp [get_audio_amplitude, h]
  · intro h
    have hnotlt : ¬ audio.length < 100 := by omega
    have hbound : ∀ i ∈ sampleIndices (min (audio.length / 2) 1000),
        2 * i + 1 < audio.length := by
      intro i hi
      rcases (sampleIndices_mem _ i).1 hi with ⟨k, hk, rfl⟩
      omega
    refine ⟨?_, ?_, ?_, ?_, ?_⟩
    · rw [get_audio_amplitude, if_neg hnotlt, ampLoop_eq_foldr audio _ 0 hbound]
      omega
    · rw [sampleIndices_length]; omega
    · intro i hi
      rcases (sampleIndices_mem _ i).1 hi with ⟨k, hk, rfl⟩
      omega
    · omega
    · intro hmem
      rcases (sampleIndices_mem _ 1).1 hmem with ⟨k, _, hk⟩
      omega

/-- C9 witness: a 99-byte buffer yields amplitude 0; on a 100-byte
buffer the amplitude equals the maximum absolute decoded sample over the
evenly spaced index subsample. -/
theorem C9_signal_analyzer_spec_witness :
    get_audio_amplitude (List.replicate 99 (0 : Byte)) = 0 ∧
    get_audio_amplitude nonzeroBuf100 =
      ((sampleIndices (min (nonzeroBuf100.length / 2) 1000)).map
        (sampleAbs nonzeroBuf100)).foldr max 0 :=
  ⟨(C9_signal_analyzer_spec (List.replicate 99 (0 : Byte))).1 (by decide),
    ((C9_signal_analyzer_spec nonzeroBuf100).2 (by decide)).1⟩

/-- C10: the amplitude returned by `get_audio_amplitude` always lies in
[0, 32768] (the lower bound holds because the result is a natural
number), and on a buffer whose first sample is the 16-bit minimum -32768
it returns exactly 32768, exceeding the 0-32767 range documented in the
docstring of `get_audio_amplitude`. -/
theorem C10_amplitude_range :
    (∀ audio : List Byte, get_audio_amplitude audio ≤ 32768) ∧
    get_audio_amplitude negFullScaleBuf = 32768 ∧
    32767 < get_audio_amplitude negFullScaleBuf := by
  refine ⟨?_, by decide, by decide⟩
  intro audio
  rw [get_audio_amplitude]
  split
  · omega
  · exact ampLoop_le audio _ 0 (by omega)

theorem readTimeoutResult_of_lt (buffer : List (List Byte)) (n : Nat)
    (h : buffer.flatten.length < n) :
    readTimeoutResult buffer n =
      buffer.flatten ++ List.replicate (n - buffer.flatten.length) 0 ∧
    (readTimeoutResult buffer n).length = n := by
  have hlen : (buffer.flatten ++
      List.replicate (n - buffer.flatten.length) (0 : Byte)).length = n := by
    rw [List.length_append, List.length_replicate]
    omega
  constructor
  · rw [readTimeoutResult]
    simp only [if_pos h]
    exact List.take_of_length_le (le_of_eq hlen)
  · rw [readTimeoutResult]
    simp only [if_pos h]
    rw [List.take_of_length_le (le_of_eq hlen), hlen]

/-- C1: whenever the buffered data is shorter than the requested amount,
the timeout branches of `read_seconds` and `read_bytes` return exactly
the requested number of bytes: the buffered partial data with a tail of
zero bytes — never fewer or more. -/
theorem C1_timeout_zero_pad (buffer : List (List Byte)) (n sampleRate channels d : Nat)
    (h1 : buffer.flatten.length < n)
    (h2 : buffer.flatten.length < d * bytesPerSecond sampleRate channels) :
    (read_bytes_timeout buffer n).length = n ∧
    read_bytes_timeout buffer n =
      buffer.flatten ++ List.replicate (n - buffer.flatten.length) 0 ∧
    (read_seconds_timeout sampleRate channels buffer d).length =
      d * bytesPerSecond sampleRate channels ∧
    read_seconds_timeout sampleRate channels buffer d =
      buffer.flatten ++
        List.replicate (d * bytesPerSecond sampleRate channels - buffer.flatten.length) 0 := by
  have hb := readTimeoutResult_of_lt buffer n h1
  have hs := readTimeoutResult_of_lt buffer (d * bytesPerSecond sampleRate channels) h2
  exact ⟨hb.2, hb.1, hs.2, hs.1⟩

/-- C1 witness: a buffer holding the three bytes 1, 2, 3 split over two
chunks, read with `read_bytes(5)` and `read_seconds(1)` at a 4-byte-per-
second stream, returns exactly 5 and 4 bytes, zero-padded at the tail. -/
theorem C1_timeout_zero_pad_witness :
    (read_bytes_timeout [[1], [2, 3]] 5).length = 5 ∧
    read_bytes_timeout [[1], [2, 3]] 5 = [1, 2, 3, 0, 0] ∧
    (read_seconds_timeout 2 1 [[1], [2, 3]] 1).length = 4 ∧
    read_seconds_timeout 2 1 [[1], [2, 3]] 1 = [1, 2, 3, 0] := by
  have h := C1_timeout_zero_pad [[1], [2, 3]] 5 2 1 1 (by decide) (by decide)
  refine ⟨h.1, ?_, h.2.2.1, ?_⟩
  · rw [h.2.1]; decide
  · rw [h.2.2.2]; decide

theorem collectChunks_spec (buffer : List (List Byte)) (n : Nat) (acc : List Byte) :
    (collectChunks buffer n acc).1 ++ (collectChunks buffer n acc).2.flatten =
      acc ++ buffer.flatten ∧
    (n ≤ acc.length + buffer.flatten.length → n ≤ (collectChunks buffer n acc).1.length) := by
  induction buffer generalizing acc with
  | nil => simp [collectChunks]
  | cons chunk rest ih =>
    have hflat : (chunk :: rest).flatten.length = chunk.length + rest.flatten.length := by
      rw [List.flatten_cons, List.length_append]
    by_cases h : acc.length < n
    · simp only [collectChunks, if_pos h]
      refine ⟨?_, ?_⟩
      · rw [(ih (acc ++ chunk)).1]
        simp [List.flatten_cons, List.append_assoc]
      · intro hn
        apply (ih (acc ++ chunk)).2
        rw [List.length_append]
        omega
    · simp only [collectChunks, if_neg h]
      exact ⟨by simp [List.flatten_cons], fun _ => by omega⟩

theorem readFast_spec (buffer : List (List Byte)) (n : Nat)
    (h : n ≤ buffer.flatten.length) :
    (readFast buffer n).1 = buffer.flatten.take n ∧
    (readFast buffer n).2.flatten = buffer.flatten.drop n := by
  have hc := collectChunks_spec buffer n []
  have hc1 : (collectChunks buffer n []).1 ++ (collectChunks buffer n []).2.flatten =
      buffer.flatten := by simpa using hc.1
  have hc2 : n ≤ (collectChunks buffer n []).1.length := hc.2 (by simpa using h)
  by_cases hgt : n < (collectChunks buffer n []).1.length
  · have hre : readFast buffer n =
        ((collectChunks buffer n []).1.take n,
          (collectChunks buffer n []).1.drop n :: (collectChunks buffer n []).2) := by
      simp only [readFast, if_pos hgt]
    rw [hre]
    refine ⟨?_, ?_⟩
    · show (collectChunks buffer n []).1.take n = _
      rw [← hc1, List.take_append_of_le_length hc2]
    · show ((collectChunks buffer n []).1.drop n ::
        (collectChunks buffer n []).2).flatten = _
      rw [List.flatten_cons, ← hc1, List.drop_append_of_le_length hc2]
  · have hre : readFast buffer n = collectChunks buffer n [] := by
      simp only [readFast, if_neg hgt]
    rw [hre]
    refine ⟨?_, ?_⟩
    · rw [← hc1, List.take_append_of_le_length hc2,
        List.take_of_length_le (by omega)]
    · rw [← hc1, List.drop_append_of_le_length hc2,
        List.drop_eq_nil_of_le (by omega), List.nil_append]

theorem trimBuffer_eq (buffer : List (List Byte)) :
    trimBuffer buffer = buffer.drop (buffer.length - 100) := by
  induction buffer using trimBuffer.induct with
  | case1 l h ih =>
      rw [trimBuffer, dif_pos h, ih, ← List.drop_one, List.drop_drop, List.length_drop]
      congr 1
      omega
  | case2 l h =>
      rw [trimBuffer, dif_neg h]
      have : l.length - 100 = 0 := by omega
      rw [this, List.drop_zero]

/-- C5: reads taken while enough data is buffered return exactly the
oldest `n` bytes and leave the rest, so the concatenation of successive
reads reconstructs the appended byte sequence in arrival order with no
loss or duplication; a reader append while the buffer is under the
100-chunk cap keeps every chunk, and once over the cap drops exactly the
oldest chunks — the newly appended chunk is always retained. -/
theorem C5_fifo_order (buffer : List (List Byte)) (n : Nat) (data : List Byte)
    (h : n ≤ buffer.flatten.length) :
    (readFast buffer n).1 = buffer.flatten.take n ∧
    (readFast buffer n).2.flatten = buffer.flatten.drop n ∧
    (readFast buffer n).1 ++ (readFast buffer n).2.flatten = buffer.flatten ∧
    (buffer.length < 100 → readerAppend buffer data = buffer ++ [data]) ∧
    readerAppend buffer data = (buffer ++ [data]).drop (buffer.length + 1 - 100) ∧
    data ∈ readerAppend buffer data := by
  have hr := readFast_spec buffer n h
  have happ : readerAppend buffer data =
      (buffer ++ [data]).drop (buffer.length + 1 - 100) := by
    rw [readerAppend, trimBuffer_eq]
    congr 1
    rw [List.length_append, List.length_singleton]
  refine ⟨hr.1, hr.2, ?_, ?_, happ, ?_⟩
  · rw [hr.1, hr.2, List.take_append_drop]
  · intro hlt
    rw [happ]
    have : buffer.length + 1 - 100 = 0 := by omega
    rw [this, List.drop_zero]
  · rw [happ, List.drop_append_of_le_length (by omega)]
    exact List.mem_append_right _ (List.mem_singleton_self data)

/-- C5 witness: reading 4 bytes from the buffer [[1,2],[3,4,5],[6]]
returns the oldest four bytes and leaves [5, 6]; appending a chunk to a
buffer of two chunks keeps all chunks. -/
theorem C5_fifo_order_witness :
    (readFast [[1, 2], [3, 4, 5], [6]] 4).1 = [1, 2, 3, 4] ∧
    (readFast [[1, 2], [3, 4, 5], [6]] 4).2.flatten = [5, 6] ∧
    readerAppend [[1], [2]] [3] = [[1], [2], [3]] := by
  have h := C5_fifo_order [[1, 2], [3, 4, 5], [6]] 4 [3] (by decide)
  have h2 := C5_fifo_order [[1], [2]] 1 [3] (by decide)
  refine ⟨?_, ?_, ?_⟩
  · rw [h.1]; decide
  · rw [h.2.1]; decide
  · rw [h2.2.2.2.1 (by decide)]; rfl

/-- C2: with a hardware profile using the amplitude-zero mute-detection
strategy, `check_and_update_mute_status` transitions unmuted to muted
exactly after 2 consecutive zero-amplitude readings (after a single zero
reading the state is still unmuted with debounce counter 1), a non-zero
reading after fewer than 2 zero readings keeps the state unmuted and
resets the debounce counter, and a single non-zero reading while muted
immediately transitions back to unmuted. -/
theorem C2_mute_hysteresis (p : HardwareProfile)
    (hp : p.mute_detection = "amplitude_zero") (zeroData nonzeroData : List Byte)
    (hz : get_audio_amplitude zeroData = 0)
    (hnz : get_audio_amplitude nonzeroData ≠ 0) :
    check_and_update_mute_status (some p) ⟨false, 0⟩ zeroData = (⟨false, 1⟩, false) ∧
    check_and_update_mute_status (some p) ⟨false, 1⟩ zeroData = (⟨true, 0⟩, true) ∧
    (∀ c, c < 2 →
      check_and_update_mute_status (some p) ⟨false, c⟩ nonzeroData = (⟨false, 0⟩, false)) ∧
    (∀ c,
      check_and_update_mute_status (some p) ⟨true, c⟩ nonzeroData = (⟨false, 0⟩, false)) := by
  refine ⟨?_, ?_, fun c _ => ?_, fun c => ?_⟩ <;>
    simp [check_and_update_mute_status, muteStrategy, hp, hz, hnz]

/-- C2 witness: the transitions at the Jabra SPEAK profile, with an
all-zero 100-byte window and a window whose first sample is 1. -/
theorem C2_mute_hysteresis_witness :
    check_and_update_mute_status (some jabraSpeakProfile) ⟨false, 0⟩ zeroBuf100 =
      (⟨false, 1⟩, false) ∧
    check_and_update_mute_status (some jabraSpeakProfile) ⟨false, 1⟩ zeroBuf100 =
      (⟨true, 0⟩, true) ∧
    check_and_update_mute_status (some jabraSpeakProfile) ⟨false, 1⟩ nonzeroBuf100 =
      (⟨false, 0⟩, false) ∧
    check_and_update_mute_status (some jabraSpeakProfile) ⟨true, 0⟩ nonzeroBuf100 =
      (⟨false, 0⟩, false) := by
  have h := C2_mute_hysteresis jabraSpeakProfile rfl zeroBuf100 nonzeroBuf100
    (by decide) (by decide)
  exact ⟨h.1, h.2.1, h.2.2.1 1 (by decide), h.2.2.2 0⟩

/-- C8: with a hardware profile whose mute-detection strategy is `none`,
`check_and_update_mute_status` reports unmuted (and resets its tracking
state) for every input buffer and every prior state, regardless of the
amplitude of the input audio. -/
theorem C8_mute_none_strategy (p : HardwareProfile) (hp : p.mute_detection = "none")
    (st : MuteState) (audioData : List Byte) :
    check_and_update_mute_status (some p) st audioData = (⟨false, 0⟩, false) := by
  simp [check_and_update_mute_status, muteStrategy, hp]

/-- C8 witness: the default profile (strategy `none`), a previously muted
state with a stale counter, and an all-zero window still report unmuted. -/
theorem C8_mute_none_strategy_witness :
    check_and_update_mute_status (some defaultProfile) ⟨true, 5⟩ zeroBuf100 =
      (⟨false, 0⟩, false) :=
  C8_mute_none_strategy defaultProfile rfl ⟨true, 5⟩ zeroBuf100

/-- C3: the `HardwareProfile` frozen dataclass declares only the fields
`name`, `prefer_capture_channels` and `mute_detection`, so the read of
`preferred_capture_device` in `VoiceAssistant.__init__` (assistant.py:232)
raises `AttributeError` for every profile, before the persistent capture
stream is ever constructed. -/
theorem C3_init_attribute_error (p : HardwareProfile) (audioDevice : String) :
    hardwareProfileGetattr p "preferred_capture_device" = none ∧
    ((hardwareProfileGetattr p "name").isSome ∧
      (hardwareProfileGetattr p "prefer_capture_channels").isSome ∧
      (hardwareProfileGetattr p "mute_detection").isSome) ∧
    initStartsCaptureStream p audioDevice =
      .error "AttributeError: preferred_capture_device" := by
  refine ⟨?_, ⟨?_, ?_, ?_⟩, ?_⟩ <;>
    simp [hardwareProfileGetattr, initStartsCaptureStream, initResolveCaptureDevice]

theorem fallbackCond_iff (w t : List Char) :
    (strContains w (pyLower t)
      || (wakeAliases (normalizeAlnum (pyLower w))).any
          (fun a => strContains a (normalizeAlnum (pyLower t)))) = true ↔
    FallbackMatchSpec w t := by
  simp [strContains, FallbackMatchSpec, List.any_eq_true]

theorem listen_fallback_fst (w t : List Char) (hw : w ≠ []) :
    (listen_for_wake_word_fallback w t).1 =
      (strContains w (pyLower t)
        || (wakeAliases (normalizeAlnum (pyLower w))).any
            (fun a => strContains a (normalizeAlnum (pyLower t)))) := by
  simp only [listen_for_wake_word_fallback, if_neg hw]
  split
  · next hcond =>
      rw [hcond]
      rcases pySplit1 w (pyLower t) with _ | p
      · rfl
      · dsimp only
        split <;> rfl
  · next hcond =>
      simp only [Bool.not_eq_true] at hcond
      rw [hcond]

/-- C4: in fallback wake-word matching, detection succeeds exactly when
the raw wake phrase is a substring of the raw lower-cased transcript or
one of the normalised alias list (which contains the normalised wake
phrase) is a substring of the normalised transcript; the transcript
"hey jetson what time is it" with wake phrase "jetson" is detected with
trailing command "what time is it", the misrecognised transcript
"jetsonn turn on the light" matches through the alias list entry
"jetsonn", and "good morning" with wake phrase "jetson" is not
detected. -/
theorem C4_wake_fallback_matching :
    (∀ wakeWord transcript : List Char, wakeWord ≠ [] →
      ((listen_for_wake_word_fallback wakeWord transcript).1 = true ↔
        FallbackMatchSpec wakeWord transcript)) ∧
    listen_for_wake_word_fallback "jetson".data "hey jetson what time is it".data =
      (true, some "what time is it".data) ∧
    ("jetsonn".data ∈ wakeAliases (normalizeAlnum (pyLower "jetson".data)) ∧
      "jetsonn".data <:+: normalizeAlnum (pyLower "jetsonn turn on the light".data) ∧
      (listen_for_wake_word_fallback "jetson".data "jetsonn turn on the light".data).1 =
        true) ∧
    listen_for_wake_word_fallback "jetson".data "good morning".data = (false, none) := by
  refine ⟨fun w t hw => ?_, by decide, ⟨by decide, by decide, by decide⟩, by decide⟩
  rw [listen_fallback_fst w t hw]
  exact fallbackCond_iff w t

/-- C4 witness: the detection-iff-match equivalence instantiated at wake
phrase "jetson" and transcript "hello jetson". -/
theorem C4_wake_fallback_matching_witness :
    (listen_for_wake_word_fallback "jetson".data "hello jetson".data).1 = true ↔
      FallbackMatchSpec "jetson".data "hello jetson".data :=
  C4_wake_fallback_matching.1 "jetson".data "hello jetson".data (by decide)

/-- C6 counterexample: for `preferred = 3` the code's candidate list is
`[1, 2]` — the preferred count itself is never probed — while the
claim's priority order `{preferred, 1, 2}` deduplicated is `[3, 1, 2]`.
On a device whose driver accepts channel counts 2 and 3, candidate 3
would be accepted, the claim's procedure returns 3, but the code
returns 2. -/
theorem C6_probe_counterexample :
    probe_capture_channels acceptsTwoOrThreeDevice 3 = 2 ∧
    probe_capture_channels_claim acceptsTwoOrThreeDevice 3 = 3 ∧
    probeAccepts (acceptsTwoOrThreeDevice 3) = true ∧
    probeCandidates 3 = [1, 2] ∧
    claimCandidates 3 = [3, 1, 2] := by
  refine ⟨by decide, by decide, by decide, by decide, by decide⟩

theorem probeLoop_eq_find (dev : Nat → ArecordOutcome) (preferred : Nat)
    (l : List Nat) :
    probeLoop dev preferred l =
      ((l.find? fun ch => probeAccepts (dev ch)).getD preferred) := by
  induction l with
  | nil => rfl
  | cons ch rest ih =>
    by_cases h : probeAccepts (dev ch)
    · simp [probeLoop, List.find?_cons_of_pos, h]
    · rw [probeLoop, if_neg (by simp [h]), List.find?_cons_of_neg _ (by simp [h]), ih]

/-- C6 amended: channel probing attempts a short capture at each
candidate in priority order {preferred, 1, 2} deduplicated when the
preferred count is 1 or 2; for any other preferred value the candidate
list is just [1, 2] and the preferred count itself is never probed.  It
returns the first candidate that completes with return code 0 and
without a driver-reported unsupported-channel-count error, returns the
preferred count on total failure (so it is total and never raises), and
for a device that only accepts stereo, probing with preferred = 1
returns 2. -/
theorem C6_probe_channels_amended (dev : Nat → ArecordOutcome) (preferred : Nat) :
    (preferred = 1 ∨ preferred = 2 →
      probeCandidates preferred = claimCandidates preferred) ∧
    (preferred ≠ 1 → preferred ≠ 2 → probeCandidates preferred = [1, 2]) ∧
    probe_capture_channels dev preferred =
      ((probeCandidates preferred).find? fun ch => probeAccepts (dev ch)).getD preferred ∧
    ((∀ ch ∈ probeCandidates preferred, probeAccepts (dev ch) = false) →
      probe_capture_channels dev preferred = preferred) ∧
    (probeAccepts (dev 1) = false → probeAccepts (dev 2) = true →
      probe_capture_channels dev 1 = 2) := by
  refine ⟨?_, ?_, probeLoop_eq_find dev preferred _, ?_, ?_⟩
  · rintro (rfl | rfl) <;> rfl
  · intro h1 h2
    have hc : (decide (preferred = 1) || decide (preferred = 2)) = false := by
      simp [h1, h2]
    simp [probeCandidates, hc]
  · intro hall
    rw [probe_capture_channels, probeLoop_eq_find,
      List.find?_eq_none.2 (fun ch hch => by simp [hall ch hch])]
    rfl
  · intro h1 h2
    have hc1 : probeCandidates 1 = [1, 2] := rfl
    rw [probe_capture_channels, hc1, probeLoop, if_neg (by simp [h1]), probeLoop,
      if_pos h2]

/-- C6 witness: the amended contract instantiated at the stereo-only
device with preferred = 1: the first accepted candidate is 2, and
probing returns 2 without raising. -/
theorem C6_probe_channels_amended_witness :
    probe_capture_channels stereoOnlyDevice 1 = 2 ∧
    probeCandidates 1 = claimCandidates 1 :=
  ⟨(C6_probe_channels_amended stereoOnlyDevice 1).2.2.2.2 (by decide) (by decide),
    (C6_probe_channels_amended stereoOnlyDevice 1).1 (Or.inl rfl)⟩

/-- C7 counterexample: a stream whose capture process handle is pid 7
still holds that handle after `stop()` returns — `stop` never clears the
`_process` attribute, so the claim that a stopped stream holds no
process handle fails. -/
theorem C7_stop_counterexample :
    (stop ⟨true, some 7⟩ false).1.process = some 7 ∧
    (stop ⟨true, some 7⟩ false).1.process ≠ none ∧
    (stop ⟨true, some 7⟩ true).1.process ≠ none := by
  refine ⟨by decide, by decide, by decide⟩

/-- C7 amended: after `stop()` returns, the running flag is cleared and
any attached capture process has been terminated — killed as well when
the graceful wait times out — but the stream still retains its reference
to the (now terminated) process handle: the process field is unchanged,
never cleared. -/
theorem C7_stop_amended (s : CaptureStreamState) (waitTimesOut : Bool) :
    (stop s waitTimesOut).1.running = false ∧
    (stop s waitTimesOut).1.process = s.process ∧
    (∀ pid, s.process = some pid →
      ProcAction.terminate pid ∈ (stop s waitTimesOut).2 ∧
      (waitTimesOut = true → ProcAction.kill pid ∈ (stop s waitTimesOut).2) ∧
      (waitTimesOut = false → ProcAction.waitOk pid ∈ (stop s waitTimesOut).2)) ∧
    (s.process = none → (stop s waitTimesOut).2 = []) := by
  rcases s with ⟨r, _ | pid⟩ <;> rcases waitTimesOut <;>
    simp [stop]

/-- C7 witness: stopping a running stream attached to pid 7 with a
timed-out graceful wait clears the running flag, keeps the handle, and
issues terminate and kill. -/
theorem C7_stop_amended_witness :
    (stop ⟨true, some 7⟩ true).1.running = false ∧
    (stop ⟨true, some 7⟩ true).1.process = some 7 ∧
    ProcAction.terminate 7 ∈ (stop ⟨true, some 7⟩ true).2 ∧
    ProcAction.kill 7 ∈ (stop ⟨true, some 7⟩ true).2 := by
  have h := C7_stop_amended ⟨true, some 7⟩ true
  have h7 := h.2.2.1 7 rfl
  exact ⟨h.1, h.2.1, h7.1, h7.2.1 rfl⟩

end JetsonVoice
